import Mathlib

/-!
Shallow embedding of the c10 storage/layout core
(ArrayRef.h, CPUAllocator.h, Tensor.cpp, cpu/op/CPUAll.h) and proofs of
the specification's claims about it.

Conventions of the embedding:
* machine addresses and byte contents are natural numbers; the memory a
  `BorrowedView` (C++ `ArrayRef`) points into is an ambient function
  `mem : Nat → α`;
* `size_t` values are naturals below `2 ^ 64`; arithmetic the C++ code
  performs on `size_t` is taken modulo `2 ^ 64` exactly where the code
  performs it;
* fallible operations return `Except Err _`; the failed `C10_ASSERT`
  becomes the error kind the spec names for that check;
* the bodies of the Tensor mutators live in `cpu/op/CPUAll.cpp`, which the
  repository snapshot does not contain (only the declarations in
  `CPUAll.h` and the dispatch stubs in `Tensor.cpp`); those definitions
  are modelled from the spec and say so in their doc comments.
-/

namespace C10

/-- Error kinds of the core, as named by the specification (section 7). -/
inductive Err where
  | AllocationFailure
  | ShapeMismatch
  | InvalidArgument
  | OutOfRange
  | InvalidRange
  | CapacityExceeded
  deriving DecidableEq

/-- The modulus of `size_t` arithmetic (64-bit platform). -/
def size_tMod : Nat := 2 ^ 64

/-- From `ArrayRef.h`: a non-owning view, a base address `Data` into
externally owned memory plus an element count `Length` (`size_t`). -/
structure ArrayRef where
  Data : Nat
  Length : Nat
  deriving DecidableEq

/-- From `ArrayRef.h` line 107: `size()` returns `Length`. -/
def ArrayRef.size (v : ArrayRef) : Nat := v.Length

/-- From `ArrayRef.h` line 102: `empty()` holds when `Length == 0`. -/
def ArrayRef.isEmpty (v : ArrayRef) : Bool := v.Length == 0

/-- From `ArrayRef.h` lines 110-113: `front()` asserts `!empty()` and then
reads `Data[0]`; the failed assertion is the spec's OutOfRange. -/
def ArrayRef.front {α : Type} (mem : Nat → α) (v : ArrayRef) : Except Err α :=
  if v.Length = 0 then .error .OutOfRange else .ok (mem v.Data)

/-- From `ArrayRef.h` lines 116-119: `back()` asserts `!empty()` and then
reads `Data[Length-1]`. -/
def ArrayRef.back {α : Type} (mem : Nat → α) (v : ArrayRef) : Except Err α :=
  if v.Length = 0 then .error .OutOfRange else .ok (mem (v.Data + (v.Length - 1)))

/-- From `ArrayRef.h` lines 147-150: checked `at(i)` asserts `i < Length`
and reads `Data[i]`; the failed assertion is the spec's OutOfRange. -/
def ArrayRef.at' {α : Type} (mem : Nat → α) (v : ArrayRef) (i : Nat) : Except Err α :=
  if i < v.Length then .ok (mem (v.Data + i)) else .error .OutOfRange

/-- From `ArrayRef.h` lines 131-134: `slice(N, M)` asserts `N+M <= size()`
and returns `ArrayRef(data()+N, M)`. `N + M` is computed in `size_t`
arithmetic, hence taken modulo `2 ^ 64`. -/
def ArrayRef.slice (v : ArrayRef) (n m : Nat) : Except Err ArrayRef :=
  if (n + m) % size_tMod ≤ v.Length then .ok ⟨v.Data + n, m⟩ else .error .InvalidRange

/-- Wrapping `size_t` subtraction: the value of `a - b` in C++ for
`size_t` operands `a b < 2 ^ 64`. -/
def sub64 (a b : Nat) : Nat := (a + size_tMod - b) % size_tMod

/-- From `ArrayRef.h` line 137: one-argument `slice(N)` calls
`slice(N, size() - N)`, the subtraction again in `size_t` arithmetic. -/
def ArrayRef.slice1 (v : ArrayRef) (n : Nat) : Except Err ArrayRef :=
  v.slice n (sub64 v.Length n)

/-- From `CPUAllocator.h` line 8: the owned block type
(`unique_ptr<void, function<void(void*)>>`); `addr = none` models the
null pointer. The deleter carries no observable data in this model. -/
structure DataPtr where
  addr : Option Nat
  deriving DecidableEq

/-- From `CPUAllocator.h` lines 19-21: `SimpleCPUAllocator::malloc` wraps
the result of the platform `std::malloc` in a block with a `std::free`
deleter, performing no null check. `sysMalloc` models the platform
allocator, returning `none` when it cannot satisfy the request. -/
def SimpleCPUAllocator.malloc (sysMalloc : Nat → Option Nat) (size : Nat) : DataPtr :=
  ⟨sysMalloc size⟩

/-- Modelled from the spec: the element-type tag with its fixed byte
width (spec sections 3 and 6); `Tensor.h` and the dtype registry are not
in the snapshot. -/
structure DataType where
  tag : Nat
  width : Nat
  deriving DecidableEq

/-- Modelled from the spec: a Storage (spec section 4.3; `Storage.h` is
not in the snapshot): an owned byte buffer with an identity `sid`
(distinguishing distinct allocations), a byte capacity, and its byte
contents. -/
structure Storage where
  sid : Nat
  capacity : Nat
  data : Nat → Nat

/-- Modelled from the spec: a Tensor (spec section 3; `Tensor.h` is not
in the snapshot): a Storage reference, an element-type tag, a byte
offset into the Storage, per-dimension extents and byte strides. -/
structure Tensor where
  storage : Storage
  dtype : DataType
  offset : Nat
  sizes : List Nat
  strides : List Nat

/-- Allocator capability as the Tensor mutators consume it: a byte count
is either refused (`none`, the spec's AllocationFailure) or yields a
fresh storage identity together with the uninitialized contents of the
new block. -/
def Alloc : Type := Nat → Option (Nat × (Nat → Nat))

/-- Modelled from the spec: the maximum reachable byte extent implied by
a shape/stride pair at element width `w` (spec sections 3 and 4.4): zero
when some extent is zero (no valid multi-index), otherwise the largest
reachable flat byte offset `Σ (size_i - 1) * stride_i` plus one element
width. -/
def byteExtent (w : Nat) (sizes strides : List Nat) : Nat :=
  if 0 ∈ sizes then 0
  else (List.zipWith (fun s st => (s - 1) * st) sizes strides).sum + w

/-- Required byte capacity of a shape/stride pair for tensor `t`: the
tensor's current byte offset plus the maximum reachable byte extent
(spec section 4.4). -/
def requiredCapacity (t : Tensor) (sizes strides : List Nat) : Nat :=
  t.offset + byteExtent t.dtype.width sizes strides

/-- The byte extent of `t`'s storage that is logically valid for `t`:
its offset plus the maximum reachable byte extent of its current
shape/strides (spec section 3, Storage invariant). -/
def logicalByteExtent (t : Tensor) : Nat :=
  requiredCapacity t t.sizes t.strides

/-- Modelled from the spec: `cpu::op::resize_` (declared in `CPUAll.h`
line 9, body not in the snapshot; spec section 4.4). Fails with
ShapeMismatch on length mismatch; if the required capacity fits, only
shape and strides change; otherwise allocates exactly the required
capacity, copies `min(old logical byte extent, new capacity)` bytes when
`keepData`, and installs the new Storage with offset reset to 0. -/
def Tensor.resize_ (alloc : Alloc) (t : Tensor) (ns nst : List Nat) (keepData : Bool) :
    Except Err Tensor :=
  if ns.length ≠ nst.length then .error .ShapeMismatch
  else
    let required := requiredCapacity t ns nst
    if required ≤ t.storage.capacity then
      .ok { t with sizes := ns, strides := nst }
    else
      match alloc required with
      | none => .error .AllocationFailure
      | some (sid, fresh) =>
          let copyLen := if keepData then min (logicalByteExtent t) required else 0
          .ok { storage := ⟨sid, required, fun i => if i < copyLen then t.storage.data i else fresh i⟩
                dtype := t.dtype
                offset := 0
                sizes := ns
                strides := nst }

/-- Modelled from the spec: `cpu::op::copy_` (declared in `CPUAll.h`
line 8, body not in the snapshot; spec section 4.4). The source pointer
is `none` when null, otherwise the source buffer's byte contents.
Fails with CapacityExceeded when `offset + size_bytes` overruns the
Storage capacity, with InvalidArgument on a null source with positive
length; otherwise writes the bytes at the tensor's offset and installs
the element-type tag. Never reallocates. -/
def Tensor.copy_ (t : Tensor) (d : DataType) (p : Option (Nat → Nat)) (sizeBytes : Int) :
    Except Err Tensor :=
  if (t.storage.capacity : Int) < (t.offset : Int) + sizeBytes then .error .CapacityExceeded
  else if p.isNone ∧ 0 < sizeBytes then .error .InvalidArgument
  else
    let src := p.getD (fun _ => 0)
    .ok { t with
          dtype := d
          storage := { t.storage with
                       data := fun i =>
                         if t.offset ≤ i ∧ (i : Int) < (t.offset : Int) + sizeBytes then
                           src (i - t.offset)
                         else t.storage.data i } }

/-- Modelled from the spec: `cpu::op::reserve_` (declared in `CPUAll.h`
line 10, body not in the snapshot; spec section 4.4). Required capacity
is the current offset plus the contiguous byte extent of `ns`; when it
fits, the call is a no-op; otherwise it reallocates like `resize_` with
`keepData = true` but leaves shape, strides and offset untouched. -/
def Tensor.reserve_ (alloc : Alloc) (t : Tensor) (ns : List Nat) : Except Err Tensor :=
  let required := t.offset + t.dtype.width * ns.prod
  if required ≤ t.storage.capacity then .ok t
  else
    match alloc required with
    | none => .error .AllocationFailure
    | some (sid, fresh) =>
        let copyLen := min (logicalByteExtent t) required
        .ok { t with
              storage := ⟨sid, required, fun i => if i < copyLen then t.storage.data i else fresh i⟩ }

/-- Modelled from the spec: `cpu::op::extend_` (declared in `CPUAll.h`
line 11, body not in the snapshot; spec section 4.4). Fails with
InvalidArgument when `num < 0` or `growthPct < 0` (and, in this model,
when the tensor has no dimension to extend). The first extent grows by
`num`; if the required capacity exceeds the current one the new capacity
is `max(required, capacity * (1 + growthPct/100))`, the product taken in
integer arithmetic, and data is preserved across the reallocation. -/
def Tensor.extend_ (alloc : Alloc) (t : Tensor) (num growthPct : Int) : Except Err Tensor :=
  if num < 0 ∨ growthPct < 0 then .error .InvalidArgument
  else
    match t.sizes with
    | [] => .error .InvalidArgument
    | e0 :: rest =>
        let newSizes := (e0 + num.toNat) :: rest
        let required := requiredCapacity t newSizes t.strides
        if required ≤ t.storage.capacity then
          .ok { t with sizes := newSizes }
        else
          let newCap := max required (t.storage.capacity * (100 + growthPct.toNat) / 100)
          match alloc newCap with
          | none => .error .AllocationFailure
          | some (sid, fresh) =>
              let copyLen := min (logicalByteExtent t) newCap
              .ok { t with
                    storage := ⟨sid, newCap, fun i => if i < copyLen then t.storage.data i else fresh i⟩
                    sizes := newSizes }

/-- Modelled from the spec: the default row-major contiguous strides for
a shape at element width `w` (spec section 3): dimension `k` steps by
`w` times the product of all extents to its right. -/
def contiguousStrides (w : Nat) : List Nat → List Nat
  | [] => []
  | _ :: rest => w * rest.prod :: contiguousStrides w rest

/-- The flat byte offset a multi-index addresses: the tensor's byte
offset plus `Σ index_k * stride_k` (spec sections 3 and 8). -/
def flatOffset (offset : Nat) (idx strides : List Nat) : Nat :=
  offset + (List.zipWith (· * ·) idx strides).sum

/-- One mutating call as the caller observes it: the tensor afterwards
(the new one on success, the untouched old one on failure) together with
the reported error, if any. -/
def runMutation (t : Tensor) (op : Tensor → Except Err Tensor) : Tensor × Option Err :=
  match op t with
  | .ok t' => (t', none)
  | .error e => (t, some e)

/-- C4 counterexample: the claim says the block returned by
`SimpleCPUAllocator`'s malloc has a non-null address for every request
size, but the implementation performs no null check: when the platform
allocation fails (here: a platform malloc that refuses every request,
asked for 16 bytes), the returned block's address is null and no
AllocationFailure is raised. -/
theorem c4_counterexample :
    (SimpleCPUAllocator.malloc (fun _ => none) 16).addr = none := rfl

/-- C4 (amended): `SimpleCPUAllocator::malloc` forwards the platform
allocation result unchecked — the returned block's address is exactly
what the platform malloc returned, so it is non-null exactly when the
platform allocation succeeded, and a failed platform allocation yields a
null block with no AllocationFailure. -/
theorem c4_malloc_passthrough (sysMalloc : Nat → Option Nat) (size : Nat) :
    (SimpleCPUAllocator.malloc sysMalloc size).addr = sysMalloc size := rfl

/-- C8 counterexample: the claim says `slice(start, count)` fails with
InvalidRange for every `start`, `count` with `start + count > size()`,
but the bound check adds in `size_t` arithmetic: on the empty view, with
`start = 2^64 - 1` and `count = 1`, `start + count` exceeds `size() = 0`
yet the call succeeds because the sum wraps to 0. -/
theorem c8_counterexample :
    ArrayRef.size ⟨0, 0⟩ < (size_tMod - 1) + 1 ∧
    ArrayRef.slice ⟨0, 0⟩ (size_tMod - 1) 1 = .ok ⟨size_tMod - 1, 1⟩ := by
  constructor
  · show (0 : Nat) < size_tMod - 1 + 1
    simp [size_tMod]
  · unfold ArrayRef.slice
    rw [if_pos (by
      rw [Nat.sub_add_cancel (by simp [size_tMod] : 1 ≤ size_tMod), Nat.mod_self])]
    norm_num

/-- C8 (amended): provided `start + count` does not overflow `size_t`
(`start + count < 2^64`), `slice(start, count)` fails with InvalidRange
exactly when `start + count > size()`, and otherwise succeeds and
returns the view of `count` elements beginning at index `start`. -/
theorem c8_slice_bounds (v : ArrayRef) (n m : Nat)
    (_hL : v.Length < size_tMod) (hnm : n + m < size_tMod) :
    (v.size < n + m → v.slice n m = .error .InvalidRange) ∧
    (n + m ≤ v.size → v.slice n m = .ok ⟨v.Data + n, m⟩) := by
  unfold ArrayRef.slice ArrayRef.size
  rw [Nat.mod_eq_of_lt hnm]
  constructor
  · intro h
    rw [if_neg (by omega)]
  · intro h
    rw [if_pos h]

/-- C8 witness: on a view of 5 elements, `slice 2 4` fails with
InvalidRange and `slice 1 3` returns the 3-element view at index 1. -/
theorem c8_witness :
    ArrayRef.slice ⟨0, 5⟩ 2 4 = .error .InvalidRange ∧
    ArrayRef.slice ⟨0, 5⟩ 1 3 = .ok ⟨1, 3⟩ :=
  ⟨(c8_slice_bounds ⟨0, 5⟩ 2 4 (by simp [size_tMod]) (by simp [size_tMod])).1
     (by simp [ArrayRef.size]),
   (c8_slice_bounds ⟨0, 5⟩ 1 3 (by simp [size_tMod]) (by simp [size_tMod])).2
     (by simp [ArrayRef.size])⟩

/-- C9: the checked `at(i)` fails with OutOfRange exactly when
`i ≥ size()` and otherwise returns the `i`-th element of the referenced
buffer; `front()` and `back()` fail with OutOfRange on an empty view. -/
theorem c9_at_bounds {α : Type} (mem : Nat → α) (v : ArrayRef) (i : Nat) :
    (v.size ≤ i → ArrayRef.at' mem v i = .error .OutOfRange) ∧
    (i < v.size → ArrayRef.at' mem v i = .ok (mem (v.Data + i))) ∧
    (v.isEmpty = true →
      ArrayRef.front mem v = .error .OutOfRange ∧
      ArrayRef.back mem v = .error .OutOfRange) := by
  unfold ArrayRef.at' ArrayRef.front ArrayRef.back ArrayRef.size ArrayRef.isEmpty
  refine ⟨fun h => ?_, fun h => ?_, fun h => ?_⟩
  · rw [if_neg (by omega)]
  · rw [if_pos h]
  · have hz : v.Length = 0 := by simpa using h
    rw [if_pos hz, if_pos hz]
    exact ⟨rfl, rfl⟩

/-- C9 witness: on a 5-element view `at 7` fails with OutOfRange and
`at 2` returns element 2; on the empty view `front` and `back` fail with
OutOfRange. -/
theorem c9_witness :
    ArrayRef.at' (fun k => k) ⟨0, 5⟩ 7 = .error .OutOfRange ∧
    ArrayRef.at' (fun k => k) ⟨0, 5⟩ 2 = .ok 2 ∧
    ArrayRef.front (fun k => k) ⟨0, 0⟩ = .error .OutOfRange ∧
    ArrayRef.back (fun k => k) ⟨0, 0⟩ = .error .OutOfRange :=
  ⟨(c9_at_bounds (fun k => k) ⟨0, 5⟩ 7).1 (by simp [ArrayRef.size]),
   (c9_at_bounds (fun k => k) ⟨0, 5⟩ 2).2.1 (by simp [ArrayRef.size]),
   ((c9_at_bounds (fun k => k) ⟨0, 0⟩ 0).2.2 (by rfl)).1,
   ((c9_at_bounds (fun k => k) ⟨0, 0⟩ 0).2.2 (by rfl)).2⟩

/-- C1: a `resize_` call with `keepData = true` whose required byte
capacity exceeds the current Storage capacity installs a freshly
allocated Storage of exactly the required capacity, resets the tensor's
offset to 0, installs the requested shape and strides, and the first
`min(old logical byte extent, new capacity)` bytes of the new Storage
equal the corresponding bytes of the old Storage. -/
theorem c1_resize_keepData_preserves (alloc : Alloc) (t : Tensor) (ns nst : List Nat)
    (sid : Nat) (fresh : Nat → Nat)
    (hlen : ns.length = nst.length)
    (hgrow : t.storage.capacity < requiredCapacity t ns nst)
    (halloc : alloc (requiredCapacity t ns nst) = some (sid, fresh)) :
    ∃ t', Tensor.resize_ alloc t ns nst true = .ok t' ∧
      t'.storage.sid = sid ∧
      t'.storage.capacity = requiredCapacity t ns nst ∧
      t'.offset = 0 ∧
      t'.sizes = ns ∧ t'.strides = nst ∧
      ∀ i, i < min (logicalByteExtent t) (requiredCapacity t ns nst) →
        t'.storage.data i = t.storage.data i := by
  refine ⟨{ storage := ⟨sid, requiredCapacity t ns nst,
              fun i => if i < min (logicalByteExtent t) (requiredCapacity t ns nst)
                       then t.storage.data i else fresh i⟩
            dtype := t.dtype
            offset := 0
            sizes := ns
            strides := nst }, ?_, rfl, rfl, rfl, rfl, rfl, ?_⟩
  · simp only [Tensor.resize_]
    rw [if_neg (by simp [hlen]), if_neg (by omega), halloc]
    simp
  · intro i hi
    simp only [if_pos hi]

/-- C1 witness: a 2x3 tensor of 4-byte elements (capacity 24, bytes
`i ↦ i`) resized to 3x3 with `keepData = true` triggers a reallocation to
36 bytes; the result holds the new storage id 7, offset 0, the new shape
and strides, and its first 24 bytes still read `i ↦ i`. -/
theorem c1_witness :
    ∃ t', Tensor.resize_ (fun _ => some (7, fun _ => 0))
        ⟨⟨1, 24, fun i => i⟩, ⟨0, 4⟩, 0, [2, 3], [12, 4]⟩ [3, 3] [12, 4] true = .ok t' ∧
      t'.storage.sid = 7 ∧
      t'.storage.capacity = 36 ∧
      t'.offset = 0 ∧
      t'.sizes = [3, 3] ∧ t'.strides = [12, 4] ∧
      ∀ i, i < 24 → t'.storage.data i = i :=
  c1_resize_keepData_preserves (fun _ => some (7, fun _ => 0))
    ⟨⟨1, 24, fun i => i⟩, ⟨0, 4⟩, 0, [2, 3], [12, 4]⟩ [3, 3] [12, 4] 7 (fun _ => 0)
    rfl (by decide) rfl

/-- C6: a `reserve_` call whose required contiguous capacity fits within
the current Storage capacity returns the tensor completely unchanged
(same Storage identity, same bytes, same shape, strides and offset); and
every successful `reserve_` leaves shape, strides and offset untouched
and preserves the logically valid bytes. -/
theorem c6_reserve_frame (alloc : Alloc) (t : Tensor) (ns : List Nat) :
    (t.offset + t.dtype.width * ns.prod ≤ t.storage.capacity →
      Tensor.reserve_ alloc t ns = .ok t) ∧
    (∀ t', Tensor.reserve_ alloc t ns = .ok t' →
      t'.sizes = t.sizes ∧ t'.strides = t.strides ∧ t'.offset = t.offset ∧
      ∀ i, i < logicalByteExtent t → i < t'.storage.capacity →
        t'.storage.data i = t.storage.data i) := by
  constructor
  · intro h
    simp only [Tensor.reserve_]
    rw [if_pos h]
  · intro t' h
    simp only [Tensor.reserve_] at h
    by_cases hc : t.offset + t.dtype.width * ns.prod ≤ t.storage.capacity
    · rw [if_pos hc] at h
      injection h with h
      subst h
      exact ⟨rfl, rfl, rfl, fun i _ _ => rfl⟩
    · rw [if_neg hc] at h
      cases halloc : alloc (t.offset + t.dtype.width * ns.prod) with
      | none =>
          rw [halloc] at h
          cases h
      | some pr =>
          obtain ⟨sid, fresh⟩ := pr
          rw [halloc] at h
          injection h with h
          subst h
          refine ⟨rfl, rfl, rfl, fun i h1 h2 => ?_⟩
          have h3 : i < min (logicalByteExtent t) (t.offset + t.dtype.width * ns.prod) := by
            simp only at h2
            omega
          simp only [if_pos h3]

/-- C6 witness: reserving shape 2x3 (24 bytes) on a tensor whose storage
already holds 24 bytes is the identity even under an allocator that
refuses every request; and a reallocating reserve to 3x3 keeps shape
`[2,3]`, strides `[12,4]`, offset 0 and the first 24 bytes `i ↦ i`. -/
theorem c6_witness :
    Tensor.reserve_ (fun _ => none)
        ⟨⟨1, 24, fun i => i⟩, ⟨0, 4⟩, 0, [2, 3], [12, 4]⟩ [2, 3] =
      .ok ⟨⟨1, 24, fun i => i⟩, ⟨0, 4⟩, 0, [2, 3], [12, 4]⟩ ∧
    ((⟨⟨7, 36, fun i => if i < 24 then i else 0⟩, ⟨0, 4⟩, 0, [2, 3], [12, 4]⟩ : Tensor).sizes
        = [2, 3] ∧
     (⟨⟨7, 36, fun i => if i < 24 then i else 0⟩, ⟨0, 4⟩, 0, [2, 3], [12, 4]⟩ : Tensor).strides
        = [12, 4] ∧
     (⟨⟨7, 36, fun i => if i < 24 then i else 0⟩, ⟨0, 4⟩, 0, [2, 3], [12, 4]⟩ : Tensor).offset
        = 0 ∧
     ∀ i, i < 24 → i < 36 →
       (⟨⟨7, 36, fun i => if i < 24 then i else 0⟩, ⟨0, 4⟩, 0, [2, 3], [12, 4]⟩ : Tensor).storage.data i
          = i) :=
  ⟨(c6_reserve_frame (fun _ => none)
      ⟨⟨1, 24, fun i => i⟩, ⟨0, 4⟩, 0, [2, 3], [12, 4]⟩ [2, 3]).1 (by decide),
   (c6_reserve_frame (fun _ => some (7, fun _ => 0))
      ⟨⟨1, 24, fun i => i⟩, ⟨0, 4⟩, 0, [2, 3], [12, 4]⟩ [3, 3]).2
     ⟨⟨7, 36, fun i => if i < 24 then i else 0⟩, ⟨0, 4⟩, 0, [2, 3], [12, 4]⟩ rfl⟩

/-- C5: `copy_` fails with CapacityExceeded and leaves the tensor and
its storage untouched when `offset + size_bytes` exceeds the Storage
capacity; within capacity it fails with InvalidArgument on a null source
with positive length, and on a non-null source it succeeds without
reallocating (same storage identity and capacity), installs the
element-type tag, copies the source bytes to `[offset, offset + size)`,
and leaves all other bytes and the shape, strides and offset unchanged. -/
theorem c5_copy_bounds (t : Tensor) (d : DataType) (p : Option (Nat → Nat)) (sb : Int) :
    ((t.storage.capacity : Int) < (t.offset : Int) + sb →
      runMutation t (fun s => Tensor.copy_ s d p sb) = (t, some .CapacityExceeded)) ∧
    ((t.offset : Int) + sb ≤ (t.storage.capacity : Int) → p = none → 0 < sb →
      Tensor.copy_ t d p sb = .error .InvalidArgument) ∧
    (∀ f, (t.offset : Int) + sb ≤ (t.storage.capacity : Int) → p = some f →
      ∃ t', Tensor.copy_ t d p sb = .ok t' ∧
        t'.dtype = d ∧ t'.sizes = t.sizes ∧ t'.strides = t.strides ∧ t'.offset = t.offset ∧
        t'.storage.sid = t.storage.sid ∧ t'.storage.capacity = t.storage.capacity ∧
        (∀ i, t.offset ≤ i → (i : Int) < (t.offset : Int) + sb →
          t'.storage.data i = f (i - t.offset)) ∧
        (∀ i, i < t.offset ∨ (t.offset : Int) + sb ≤ (i : Int) →
          t'.storage.data i = t.storage.data i)) := by
  refine ⟨fun h => ?_, fun h hp hsb => ?_, fun f h hp => ?_⟩
  · have hc : Tensor.copy_ t d p sb = .error .CapacityExceeded := by
      simp only [Tensor.copy_]
      rw [if_pos h]
    simp only [runMutation, hc]
  · simp only [Tensor.copy_]
    rw [if_neg (not_lt.mpr h), if_pos ⟨by simp [hp], hsb⟩]
  · subst hp
    simp only [Tensor.copy_]
    rw [if_neg (not_lt.mpr h), if_neg (by simp)]
    refine ⟨_, rfl, rfl, rfl, rfl, rfl, rfl, rfl, fun i h1 h2 => ?_, fun i hout => ?_⟩
    · simp only [if_pos (And.intro h1 h2), Option.getD_some]
    · simp only [if_neg (show ¬(t.offset ≤ i ∧ (i : Int) < (t.offset : Int) + sb) by omega)]

/-- C5 witness: on a tensor with offset 0 and capacity 36, a copy of 40
bytes fails with CapacityExceeded leaving the tensor as it was; within
capacity, a null source of 8 bytes fails with InvalidArgument; a 36-byte
copy from the buffer `k ↦ k + 100` succeeds, keeps the storage identity
and capacity, sets the tag, writes `i ↦ i + 100`, and alters nothing
else. -/
theorem c5_witness :
    runMutation ⟨⟨1, 36, fun i => i⟩, ⟨0, 4⟩, 0, [3, 3], [12, 4]⟩
        (fun s => Tensor.copy_ s ⟨2, 4⟩ (some fun k => k + 100) 40) =
      (⟨⟨1, 36, fun i => i⟩, ⟨0, 4⟩, 0, [3, 3], [12, 4]⟩, some .CapacityExceeded) ∧
    Tensor.copy_ ⟨⟨1, 36, fun i => i⟩, ⟨0, 4⟩, 0, [3, 3], [12, 4]⟩ ⟨2, 4⟩ none 8 =
      .error .InvalidArgument ∧
    (∃ t', Tensor.copy_ ⟨⟨1, 36, fun i => i⟩, ⟨0, 4⟩, 0, [3, 3], [12, 4]⟩ ⟨2, 4⟩
        (some fun k => k + 100) 36 = .ok t' ∧
      t'.dtype = ⟨2, 4⟩ ∧ t'.sizes = [3, 3] ∧ t'.strides = [12, 4] ∧ t'.offset = 0 ∧
      t'.storage.sid = 1 ∧ t'.storage.capacity = 36 ∧
      (∀ i : Nat, 0 ≤ i → (i : Int) < (0 : Int) + 36 → t'.storage.data i = (i - 0) + 100) ∧
      (∀ i : Nat, i < 0 ∨ (0 : Int) + 36 ≤ (i : Int) → t'.storage.data i = i)) :=
  ⟨(c5_copy_bounds ⟨⟨1, 36, fun i => i⟩, ⟨0, 4⟩, 0, [3, 3], [12, 4]⟩ ⟨2, 4⟩
      (some fun k => k + 100) 40).1 (by decide),
   (c5_copy_bounds ⟨⟨1, 36, fun i => i⟩, ⟨0, 4⟩, 0, [3, 3], [12, 4]⟩ ⟨2, 4⟩
      none 8).2.1 (by decide) rfl (by decide),
   (c5_copy_bounds ⟨⟨1, 36, fun i => i⟩, ⟨0, 4⟩, 0, [3, 3], [12, 4]⟩ ⟨2, 4⟩
      (some fun k => k + 100) 36).2.2 (fun k => k + 100) (by decide) rfl⟩

/-- C3: when the allocator refuses every request, each of the three
growth-capable mutators (`resize_`, `reserve_`, `extend_`) reports
AllocationFailure and the caller's tensor afterwards is exactly the
tensor from before the call: shape, strides, offset and Storage
reference all unchanged. -/
theorem c3_alloc_failure_atomic (alloc : Alloc) (t : Tensor) (ns nst rs : List Nat)
    (num growthPct : Int) (e0 : Nat) (rest : List Nat) (keepData : Bool)
    (hfa : alloc (requiredCapacity t ns nst) = none)
    (hfb : alloc (t.offset + t.dtype.width * rs.prod) = none)
    (hfc : alloc (max (requiredCapacity t ((e0 + num.toNat) :: rest) t.strides)
        (t.storage.capacity * (100 + growthPct.toNat) / 100)) = none)
    (hlen : ns.length = nst.length)
    (hgrow1 : t.storage.capacity < requiredCapacity t ns nst)
    (hgrow2 : t.storage.capacity < t.offset + t.dtype.width * rs.prod)
    (hnum : 0 ≤ num) (hpct : 0 ≤ growthPct)
    (hsz : t.sizes = e0 :: rest)
    (hgrow3 : t.storage.capacity < requiredCapacity t ((e0 + num.toNat) :: rest) t.strides) :
    runMutation t (fun s => Tensor.resize_ alloc s ns nst keepData) =
      (t, some .AllocationFailure) ∧
    runMutation t (fun s => Tensor.reserve_ alloc s rs) = (t, some .AllocationFailure) ∧
    runMutation t (fun s => Tensor.extend_ alloc s num growthPct) =
      (t, some .AllocationFailure) := by
  refine ⟨?_, ?_, ?_⟩
  · have hc : Tensor.resize_ alloc t ns nst keepData = .error .AllocationFailure := by
      simp only [Tensor.resize_]
      rw [if_neg (by simp [hlen]), if_neg (by omega), hfa]
    simp only [runMutation, hc]
  · have hc : Tensor.reserve_ alloc t rs = .error .AllocationFailure := by
      simp only [Tensor.reserve_]
      rw [if_neg (by omega), hfb]
    simp only [runMutation, hc]
  · have hc : Tensor.extend_ alloc t num growthPct = .error .AllocationFailure := by
      simp only [Tensor.extend_]
      rw [if_neg (by omega), hsz]
      simp only []
      rw [if_neg (by omega), hfc]
    simp only [runMutation, hc]

/-- C3 witness: on the 2x3 tensor with capacity 24 and the
always-failing allocator, `resize_` to 3x3, `reserve_` of 3x3 and
`extend_ 1 50` each report AllocationFailure with the tensor unchanged. -/
theorem c3_witness :
    runMutation ⟨⟨1, 24, fun i => i⟩, ⟨0, 4⟩, 0, [2, 3], [12, 4]⟩
        (fun s => Tensor.resize_ (fun _ => none) s [3, 3] [12, 4] true) =
      (⟨⟨1, 24, fun i => i⟩, ⟨0, 4⟩, 0, [2, 3], [12, 4]⟩, some .AllocationFailure) ∧
    runMutation ⟨⟨1, 24, fun i => i⟩, ⟨0, 4⟩, 0, [2, 3], [12, 4]⟩
        (fun s => Tensor.reserve_ (fun _ => none) s [3, 3]) =
      (⟨⟨1, 24, fun i => i⟩, ⟨0, 4⟩, 0, [2, 3], [12, 4]⟩, some .AllocationFailure) ∧
    runMutation ⟨⟨1, 24, fun i => i⟩, ⟨0, 4⟩, 0, [2, 3], [12, 4]⟩
        (fun s => Tensor.extend_ (fun _ => none) s 1 50) =
      (⟨⟨1, 24, fun i => i⟩, ⟨0, 4⟩, 0, [2, 3], [12, 4]⟩, some .AllocationFailure) :=
  c3_alloc_failure_atomic (fun _ => none) ⟨⟨1, 24, fun i => i⟩, ⟨0, 4⟩, 0, [2, 3], [12, 4]⟩
    [3, 3] [12, 4] [3, 3] 1 50 2 [3] true rfl rfl rfl rfl (by decide) (by decide)
    (by decide) (by decide) rfl (by decide)

/-- C2: after a successful `extend_(num, growthPct)` with `num > 0` on a
tensor with a first dimension, the new capacity is at least the old one
and at least the bytes required for the extended first dimension; a
reallocation produces exactly `max(required, capacity * (1 + pct/100))`
(the growth product in integer arithmetic); with `growthPct = 0` that
maximum is exactly the required bytes; and the logically valid bytes are
preserved across the call. -/
theorem c2_extend_growth (alloc : Alloc) (t : Tensor) (num growthPct : Int)
    (e0 : Nat) (rest : List Nat)
    (hnum : 0 < num) (hpct : 0 ≤ growthPct)
    (hsz : t.sizes = e0 :: rest) :
    (∀ t', Tensor.extend_ alloc t num growthPct = .ok t' →
      t.storage.capacity ≤ t'.storage.capacity ∧
      requiredCapacity t ((e0 + num.toNat) :: rest) t.strides ≤ t'.storage.capacity) ∧
    (t.storage.capacity < requiredCapacity t ((e0 + num.toNat) :: rest) t.strides →
      ∀ sid fresh,
        alloc (max (requiredCapacity t ((e0 + num.toNat) :: rest) t.strides)
            (t.storage.capacity * (100 + growthPct.toNat) / 100)) = some (sid, fresh) →
        ∃ t', Tensor.extend_ alloc t num growthPct = .ok t' ∧
          t'.storage.capacity =
            max (requiredCapacity t ((e0 + num.toNat) :: rest) t.strides)
              (t.storage.capacity * (100 + growthPct.toNat) / 100)) ∧
    (growthPct = 0 →
      t.storage.capacity < requiredCapacity t ((e0 + num.toNat) :: rest) t.strides →
      max (requiredCapacity t ((e0 + num.toNat) :: rest) t.strides)
          (t.storage.capacity * (100 + growthPct.toNat) / 100) =
        requiredCapacity t ((e0 + num.toNat) :: rest) t.strides) ∧
    (∀ t', Tensor.extend_ alloc t num growthPct = .ok t' →
      ∀ i, i < logicalByteExtent t → i < t'.storage.capacity →
        t'.storage.data i = t.storage.data i) := by
  obtain ⟨st, dt, off, szs, strd⟩ := t
  simp only at hsz
  subst hsz
  have hcap100 : st.capacity * 100 / 100 = st.capacity := by
    exact Nat.mul_div_cancel st.capacity (by norm_num)
  have hgrown : st.capacity ≤ st.capacity * (100 + growthPct.toNat) / 100 := by
    calc st.capacity = st.capacity * 100 / 100 := hcap100.symm
    _ ≤ st.capacity * (100 + growthPct.toNat) / 100 :=
        Nat.div_le_div_right (Nat.mul_le_mul_left st.capacity (by omega))
  refine ⟨fun t' h => ?_, fun hgrow sid fresh halloc => ?_, fun hz hgrow => ?_, fun t' h i h1 h2 => ?_⟩
  · simp only [Tensor.extend_] at h
    rw [if_neg (by omega)] at h
    by_cases hc :
        requiredCapacity ⟨st, dt, off, e0 :: rest, strd⟩ ((e0 + num.toNat) :: rest) strd ≤
          st.capacity
    · rw [if_pos hc] at h
      injection h with h
      subst h
      exact ⟨le_refl _, hc⟩
    · rw [if_neg hc] at h
      cases halloc :
          alloc (max (requiredCapacity ⟨st, dt, off, e0 :: rest, strd⟩
              ((e0 + num.toNat) :: rest) strd)
            (st.capacity * (100 + growthPct.toNat) / 100)) with
      | none => rw [halloc] at h; cases h
      | some pr =>
          obtain ⟨sid, fresh⟩ := pr
          rw [halloc] at h
          injection h with h
          subst h
          constructor
          · exact le_trans hgrown (le_max_right _ _)
          · exact le_max_left _ _
  · dsimp only at hgrow halloc
    simp only [Tensor.extend_]
    rw [if_neg (by omega), if_neg (by omega), halloc]
    exact ⟨_, rfl, rfl⟩
  · subst hz
    simp only [Int.toNat_zero, Nat.add_zero, hcap100]
    exact Nat.max_eq_left (le_of_lt hgrow)
  · simp only [Tensor.extend_] at h
    rw [if_neg (by omega)] at h
    by_cases hc :
        requiredCapacity ⟨st, dt, off, e0 :: rest, strd⟩ ((e0 + num.toNat) :: rest) strd ≤
          st.capacity
    · rw [if_pos hc] at h
      injection h with h
      subst h
      rfl
    · rw [if_neg hc] at h
      cases halloc :
          alloc (max (requiredCapacity ⟨st, dt, off, e0 :: rest, strd⟩
              ((e0 + num.toNat) :: rest) strd)
            (st.capacity * (100 + growthPct.toNat) / 100)) with
      | none => rw [halloc] at h; cases h
      | some pr =>
          obtain ⟨sid, fresh⟩ := pr
          rw [halloc] at h
          injection h with h
          subst h
          simp only at h2 ⊢
          rw [if_pos (by omega)]

/-- C2 witness: extending the 2x3 tensor (capacity 24) by one row with
50 percent growth requires 36 bytes and reallocates to
`max(36, 24 * 150 / 100) = 36`; with growth 0 the target is exactly the
36 required bytes; the first 24 bytes are preserved. -/
theorem c2_witness :
    ((24 : Nat) ≤ 36 ∧
      requiredCapacity ⟨⟨1, 24, fun i => i⟩, ⟨0, 4⟩, 0, [2, 3], [12, 4]⟩ [3, 3] [12, 4] ≤ 36) ∧
    (∃ t', Tensor.extend_ (fun _ => some (7, fun _ => 0))
        ⟨⟨1, 24, fun i => i⟩, ⟨0, 4⟩, 0, [2, 3], [12, 4]⟩ 1 50 = .ok t' ∧
      t'.storage.capacity = 36) ∧
    max (36 : Nat) (24 * 100 / 100) = 36 ∧
    (∀ i, i < 24 → i < 36 →
      (⟨⟨7, 36, fun i => if i < 24 then i else 0⟩, ⟨0, 4⟩, 0, [3, 3], [12, 4]⟩ : Tensor).storage.data i
        = i) :=
  ⟨(c2_extend_growth (fun _ => some (7, fun _ => 0))
      ⟨⟨1, 24, fun i => i⟩, ⟨0, 4⟩, 0, [2, 3], [12, 4]⟩ 1 50 2 [3]
      (by decide) (by decide) rfl).1
     ⟨⟨7, 36, fun i => if i < 24 then i else 0⟩, ⟨0, 4⟩, 0, [3, 3], [12, 4]⟩ rfl,
   (c2_extend_growth (fun _ => some (7, fun _ => 0))
      ⟨⟨1, 24, fun i => i⟩, ⟨0, 4⟩, 0, [2, 3], [12, 4]⟩ 1 50 2 [3]
      (by decide) (by decide) rfl).2.1
     (by decide) 7 (fun _ => 0) rfl,
   (c2_extend_growth (fun _ => some (7, fun _ => 0))
      ⟨⟨1, 24, fun i => i⟩, ⟨0, 4⟩, 0, [2, 3], [12, 4]⟩ 1 0 2 [3]
      (by decide) (by decide) rfl).2.2.1 rfl (by decide),
   (c2_extend_growth (fun _ => some (7, fun _ => 0))
      ⟨⟨1, 24, fun i => i⟩, ⟨0, 4⟩, 0, [2, 3], [12, 4]⟩ 1 50 2 [3]
      (by decide) (by decide) rfl).2.2.2
     ⟨⟨7, 36, fun i => if i < 24 then i else 0⟩, ⟨0, 4⟩, 0, [3, 3], [12, 4]⟩ rfl⟩

/-- Default strides have one entry per dimension. -/
theorem contiguousStrides_length (w : Nat) :
    ∀ S : List Nat, (contiguousStrides w S).length = S.length
  | [] => rfl
  | _ :: rest => by
      simp [contiguousStrides, contiguousStrides_length w rest]

/-- The rightmost default stride is the element width. -/
theorem contiguousStrides_getLast (w : Nat) :
    ∀ S : List Nat, S ≠ [] → (contiguousStrides w S).getLast? = some w
  | [_], _ => by simp [contiguousStrides]
  | _ :: s' :: rest, _ => by
      rw [contiguousStrides, contiguousStrides, List.getLast?_cons_cons]
      exact contiguousStrides_getLast w (s' :: rest) (by simp)

/-- Each default stride is the next stride times the next extent. -/
theorem contiguousStrides_step (w : Nat) :
    ∀ (S : List Nat) (k : Nat), k + 1 < S.length →
      (contiguousStrides w S).getD k 0 =
        (contiguousStrides w S).getD (k + 1) 0 * S.getD (k + 1) 0
  | [], k, h => by simp at h
  | s :: rest, 0, h => by
      match rest, h with
      | s' :: rest', _ =>
        show w * (s' :: rest').prod = (contiguousStrides w (s' :: rest')).getD 0 0 * s'
        rw [contiguousStrides]
        simp [List.prod_cons]
        ring
  | s :: rest, k + 1, h => by
      have ih := contiguousStrides_step w rest k (by simpa using h)
      rw [contiguousStrides]
      simpa using ih

/-- A valid multi-index dotted with the default strides stays at least
one element width below the contiguous extent `w * prod S`. -/
theorem contiguous_dot_lt (w : Nat) :
    ∀ (S idx : List Nat), idx.length = S.length →
      (∀ p ∈ idx.zip S, p.1 < p.2) →
      (List.zipWith (· * ·) idx (contiguousStrides w S)).sum + w ≤ w * S.prod
  | [], [], _, _ => by simp
  | [], _ :: _, hlen, _ => by simp at hlen
  | _ :: _, [], hlen, _ => by simp at hlen
  | s :: rest, i :: idx', hlen, hmem => by
      have hlen' : idx'.length = rest.length := by simpa using hlen
      have hi : i < s := hmem (i, s) (by simp)
      have ih := contiguous_dot_lt w rest idx' hlen'
        (fun p hp => hmem p (by simp [hp]))
      rw [contiguousStrides]
      simp only [List.zipWith_cons_cons, List.sum_cons, List.prod_cons]
      have hs : 1 ≤ s := Nat.pos_of_ne_zero (by omega)
      calc i * (w * rest.prod) + (List.zipWith (· * ·) idx' (contiguousStrides w rest)).sum + w
          ≤ (s - 1) * (w * rest.prod) + w * rest.prod := by
            have h1 : i * (w * rest.prod) ≤ (s - 1) * (w * rest.prod) :=
              Nat.mul_le_mul_right _ (by omega)
            omega
        _ = s * (w * rest.prod) := by
            rw [← Nat.succ_pred_eq_of_pos hs, Nat.succ_mul]
            simp [Nat.succ_pred_eq_of_pos hs]
        _ = w * (s * rest.prod) := by ring

/-- C7: the default strides of a shape are row-major contiguous — the
rightmost stride is the element width and each stride is the next stride
times the next extent — and for every valid multi-index the flat byte
offset `offset + Σ index_k * stride_k` lies below any capacity at least
`offset + w * prod S` (in particular the exactly required contiguous
capacity). -/
theorem c7_default_strides_layout (w : Nat) (S idx : List Nat) (offset cap : Nat)
    (hw : 1 ≤ w)
    (hlen : idx.length = S.length)
    (hidx : ∀ p ∈ idx.zip S, p.1 < p.2)
    (hcap : offset + w * S.prod ≤ cap) :
    (S ≠ [] → (contiguousStrides w S).getLast? = some w) ∧
    (∀ k, k + 1 < S.length →
      (contiguousStrides w S).getD k 0 =
        (contiguousStrides w S).getD (k + 1) 0 * S.getD (k + 1) 0) ∧
    flatOffset offset idx (contiguousStrides w S) < cap := by
  refine ⟨contiguousStrides_getLast w S, contiguousStrides_step w S, ?_⟩
  have hb := contiguous_dot_lt w S idx hlen hidx
  have h2 : offset + ((List.zipWith (· * ·) idx (contiguousStrides w S)).sum + w) ≤ cap :=
    le_trans (Nat.add_le_add_left hb offset) hcap
  unfold flatOffset
  omega

/-- C7 witness: for shape 2x3 at width 4 the default strides are
`[12, 4]` — last stride 4, and 12 = 4 * 3 — and the multi-index `[1, 2]`
lands at flat byte offset 20, inside the 24-byte capacity. -/
theorem c7_witness :
    (contiguousStrides 4 [2, 3]).getLast? = some 4 ∧
    (contiguousStrides 4 [2, 3]).getD 0 0 =
      (contiguousStrides 4 [2, 3]).getD 1 0 * List.getD [2, 3] 1 0 ∧
    flatOffset 0 [1, 2] (contiguousStrides 4 [2, 3]) < 24 :=
  ⟨(c7_default_strides_layout 4 [2, 3] [1, 2] 0 24 (by decide) rfl (by decide) (by decide)).1
     (by simp),
   (c7_default_strides_layout 4 [2, 3] [1, 2] 0 24 (by decide) rfl (by decide) (by decide)).2.1
     0 (by decide),
   (c7_default_strides_layout 4 [2, 3] [1, 2] 0 24 (by decide) rfl (by decide) (by decide)).2.2⟩

/-- C10: the `slice` bound check adds `start + count` in `size_t`
arithmetic, so a sum that wraps to at most `size()` passes the check and
the out-of-bounds view `(data() + start, count)` is returned; in
particular the one-argument `slice(start)` never fails, because
`size() - start` underflows for `start > size()` and the wrapped sum is
exactly `size()`. -/
theorem c10_slice_wraparound (v : ArrayRef) (n m : Nat)
    (hL : v.Length < size_tMod) (hn : n < size_tMod) :
    (size_tMod ≤ n + m → (n + m) % size_tMod ≤ v.size →
      v.slice n m = .ok ⟨v.Data + n, m⟩) ∧
    v.slice1 n = .ok ⟨v.Data + n, sub64 v.Length n⟩ := by
  constructor
  · intro _ hpass
    unfold ArrayRef.slice
    rw [if_pos (by simpa [ArrayRef.size] using hpass)]
  · unfold ArrayRef.slice1 ArrayRef.slice sub64
    rw [if_pos]
    rcases le_or_lt n v.Length with h | h
    · have h1 : (v.Length + size_tMod - n) % size_tMod = v.Length - n := by
        rw [show v.Length + size_tMod - n = (v.Length - n) + size_tMod by omega,
            Nat.add_mod_right]
        exact Nat.mod_eq_of_lt (by omega)
      rw [h1, show n + (v.Length - n) = v.Length by omega]
      rw [Nat.mod_eq_of_lt hL]
    · have h1 : (v.Length + size_tMod - n) % size_tMod = v.Length + size_tMod - n :=
        Nat.mod_eq_of_lt (by omega)
      rw [h1, show n + (v.Length + size_tMod - n) = v.Length + size_tMod by omega,
          Nat.add_mod_right]
      rw [Nat.mod_eq_of_lt hL]

/-- C10 witness: on a 2-element view, `slice (2^64 - 1) 2` wraps past the
check and returns a view starting far out of bounds; on the empty view,
one-argument `slice 5` succeeds instead of failing, returning a view of
`2^64 - 5` elements at index 5. -/
theorem c10_witness :
    ArrayRef.slice ⟨0, 2⟩ (size_tMod - 1) 2 = .ok ⟨size_tMod - 1, 2⟩ ∧
    ArrayRef.slice1 ⟨0, 0⟩ 5 = .ok ⟨5, sub64 0 5⟩ :=
  ⟨(c10_slice_wraparound ⟨0, 2⟩ (size_tMod - 1) 2 (by simp [size_tMod])
      (by simp [size_tMod])).1
     (by simp [size_tMod])
     (by simp [ArrayRef.size, size_tMod]),
   (c10_slice_wraparound ⟨0, 0⟩ 5 0 (by simp [size_tMod]) (by simp [size_tMod])).2⟩

end C10
